import Mathlib

/-!
Verification of the image slideshow tool (`slideshow_gui.py`).

Part 1 embeds the discovery engine: natural-order keys (`natural_keys`),
the stable sort used by `sorted(..., key=...)`, the image-extension filter
(`is_image_file`) and the depth-first collection (`collect_images_dfs`).

Part 2 embeds the playback scheduler of class `ImageSlideshow`:
`show_image`, `schedule_show_image`, `toggle_pause`, `show_previous`,
`show_next`, `toggle_loop`, `update_interval`, `exit_slideshow`, together
with a transition relation and its reachable-state invariant.

Strings are modelled as `List Char`; paths use the separator character.
Machine-level concerns (tkinter widgets, PIL decoding) are external: image
decoding is an oracle `List Char → Bool` on the file path, and the
compiled folder regular expression (Python's `re` library, external) is an
oracle `List Char → Option Nat` returning the captured number on a match.
-/

/-- `os.path.basename`: the part of a path after the last separator. -/
def basename (p : List Char) : List Char :=
  p.foldl (fun acc c => if c = '/' then [] else acc ++ [c]) []

/-- `os.path.join(p, f)` for a relative leaf name `f`. -/
def joinPath (p f : List Char) : List Char :=
  p ++ ('/' :: f)

/-- Group a character list into maximal runs of digits and of non-digits
(the runs alternate and are nonempty). -/
def chunkRuns : List Char → List (List Char)
  | [] => []
  | c :: cs =>
    match chunkRuns cs with
    | [] => [[c]]
    | [] :: rest => [c] :: rest
    | (d :: ds) :: rest =>
      if c.isDigit = d.isDigit then (c :: d :: ds) :: rest
      else [c] :: (d :: ds) :: rest

/-- Python `re.split` on the digit-run pattern with a capture group keeps the
digit runs and yields empty text segments at the boundaries: the result
always alternates text segment, digit run, text segment, ..., text segment,
with empty segments inserted when the name starts or ends with a digit run,
and is a single empty segment for the empty name. -/
def reSplitDigits (cs : List Char) : List (List Char) :=
  match chunkRuns cs with
  | [] => [[]]
  | chunk :: rest =>
    let chunks := chunk :: rest
    let chunks1 :=
      match chunk with
      | c :: _ => if c.isDigit then [] :: chunks else chunks
      | [] => chunks
    match chunks1.getLast? with
    | some (c :: _) => if c.isDigit then chunks1 ++ [[]] else chunks1
    | _ => chunks1

/-- Decimal value of a digit run, as Python `int` (unbounded). -/
def digitsToNat (cs : List Char) : Nat :=
  cs.foldl (fun acc c => acc * 10 + (c.toNat - 48)) 0

/-- One element of a natural-order key: either a lower-cased text segment or
the integer value of a digit run. -/
inductive NKey where
  | s (cs : List Char)
  | n (val : Nat)
deriving DecidableEq, Repr

/-- `natural_keys(text)`: split `basename(text)` on digit runs; a segment that
is a nonempty all-digit run (Python `str.isdigit`) becomes its integer value,
any other segment is lower-cased text. -/
def natural_keys (text : List Char) : List NKey :=
  (reSplitDigits (basename text)).map (fun run =>
    if !run.isEmpty && run.all Char.isDigit then NKey.n (digitsToNat run)
    else NKey.s (run.map Char.toLower))

/-- Lexicographic order on character lists (Python string comparison by code
point). -/
def ltListChar : List Char → List Char → Bool
  | [], [] => false
  | [], _ :: _ => true
  | _ :: _, [] => false
  | a :: as, b :: bs =>
    if a < b then true else if b < a then false else ltListChar as bs

/-- Order on key elements. Integers compare numerically, text compares
lexicographically. Comparing an integer with text raises `TypeError` in
Python; it never happens here because every key list produced by
`natural_keys` has text at even positions and integers at odd positions,
so the mixed cases below are arbitrary and unreachable in any comparison
the program performs. -/
def ltNKey : NKey → NKey → Bool
  | NKey.n a, NKey.n b => decide (a < b)
  | NKey.s a, NKey.s b => ltListChar a b
  | NKey.n _, NKey.s _ => true
  | NKey.s _, NKey.n _ => false

/-- Lexicographic order on key lists (Python list comparison). -/
def ltNKeys : List NKey → List NKey → Bool
  | [], [] => false
  | [], _ :: _ => true
  | _ :: _, [] => false
  | a :: as, b :: bs =>
    if ltNKey a b then true else if ltNKey b a then false else ltNKeys as bs

/-- Stable insertion used to model Python's stable `sorted(..., key=...)`:
an element is placed before the first existing element whose key is not
smaller, so elements with equal keys keep their original order. -/
def insertByKey (key : α → List NKey) (x : α) : List α → List α
  | [] => [x]
  | y :: ys =>
    if ltNKeys (key y) (key x) then y :: insertByKey key x ys
    else x :: y :: ys

/-- `sorted(xs, key=key)`: stable ascending sort by key. -/
def sortByKey (key : α → List NKey) (xs : List α) : List α :=
  xs.foldr (insertByKey key) []

/-- `is_image_file(filename)`: the lower-cased name ends with one of the
supported extensions. -/
def is_image_file (f : List Char) : Bool :=
  let lf := f.map Char.toLower
  ([".png", ".jpg", ".jpeg", ".gif", ".bmp", ".tiff"].map String.data).any
    (fun e => e.isSuffixOf lf)

/-- `handle_unmatched`: policy for a leaf folder name the pattern does not
match. -/
inductive HandleUnmatched where
  | show_all
  | skip_folder
deriving DecidableEq, Repr

/-- The discovery options passed to `ImageSlideshow.__init__`. The compiled
regular expression is modelled as an oracle returning the captured `num`
group's integer value on a match of the folder name, `none` on no match. -/
structure DiscoveryOptions where
  skipFirstImage : Bool
  regexPattern : Option (List Char → Option Nat)
  handleUnmatched : HandleUnmatched

/-- A directory as seen by `os.listdir`: its base name, whether listing it
succeeds (a `PermissionError` is modelled by `readable = false`), the plain
files directly inside, and the subdirectories. -/
inductive Dir where
  | mk (dname : List Char) (readable : Bool) (files : List (List Char))
       (subdirs : List Dir)

/-- Base name of the directory. -/
def Dir.dname : Dir → List Char
  | .mk n _ _ _ => n

/-- Whether `os.listdir` succeeds on the directory. -/
def Dir.readable : Dir → Bool
  | .mk _ r _ _ => r

/-- The plain files directly inside the directory. -/
def Dir.files : Dir → List (List Char)
  | .mk _ _ fs _ => fs

/-- The subdirectories of the directory. -/
def Dir.subdirs : Dir → List Dir
  | .mk _ _ _ ds => ds

/-- The leaf-directory branch of `collect_images_dfs` (reached when the
directory has no subdirectories): filter to image files, natural-sort,
derive the folder name, resolve the per-folder limit from the pattern
(returning nothing at all under `skip_folder` on no match), drop the first
image if requested, truncate to the limit, and emit (full path, folder
name) entries. -/
def collect_leaf (o : DiscoveryOptions) (curPath folderName : List Char)
    (files : List (List Char)) : List (List Char × List Char) :=
  let image_files := files.filter is_image_file
  let sorted_image_files := sortByKey natural_keys image_files
  let finish : Option Nat → List (List Char × List Char) := fun limit =>
    let afterSkip :=
      if o.skipFirstImage then sorted_image_files.drop 1
      else sorted_image_files
    let afterLimit :=
      match limit with
      | some n => afterSkip.take n
      | none => afterSkip
    afterLimit.map (fun f => (joinPath curPath f, folderName))
  match o.regexPattern with
  | some pf =>
    match pf folderName with
    | some n => finish (some n)
    | none =>
      match o.handleUnmatched with
      | HandleUnmatched.show_all => finish none
      | HandleUnmatched.skip_folder => []
  | none => finish none

/-- `collect_images_dfs(current_path)`: an unlistable directory contributes
nothing; a directory with subdirectories recurses into them in natural order
of their joined paths (equivalently of their base names, since
`natural_keys` takes the basename) and collects nothing directly; a leaf
directory contributes its processed image list. The extra fuel argument
bounds the recursion depth, matching the source's recursion whenever the
fuel is at least the tree height. -/
def collect_images_dfs (o : DiscoveryOptions) :
    Nat → List Char → Dir → List (List Char × List Char)
  | 0, _, _ => []
  | Nat.succ fuel, curPath, Dir.mk dn readable files subdirs =>
    if readable = false then []
    else if subdirs.isEmpty then collect_leaf o curPath dn files
    else
      ((sortByKey (fun c => natural_keys (joinPath curPath c.dname)) subdirs).map
        (fun c => collect_images_dfs o fuel (joinPath curPath c.dname) c)).flatten

/-- `collect_images_from_folders`: visit each root in the caller-provided
order (the caller `start_slideshow` pre-sorts the roots by `natural_keys`)
and concatenate. Each root `Dir` is addressed by its own name as path. -/
def collect_images_from_folders (o : DiscoveryOptions) (fuel : Nat)
    (roots : List Dir) : List (List Char × List Char) :=
  (roots.map (fun d => collect_images_dfs o fuel d.dname d)).flatten

/-- The mutable playback state of class `ImageSlideshow`. `afterId` mirrors
`self.after_id` (the tkinter timer handle, or `None`); the ghost fields
`nextHandle` (fresh-handle supply for `root.after`) and `liveTimers`
(how many armed timers have not been cancelled) track the timers actually
live in the event loop, so that timer exclusivity is a real statement and
not a restatement of `afterId`'s type. -/
structure Slideshow where
  imagePaths : List (List Char × List Char)
  currentImageIndex : Nat
  isRunning : Bool
  paused : Bool
  isLooping : Bool
  interval : Nat
  afterId : Option Nat
  nextHandle : Nat
  liveTimers : Nat
deriving Repr

/-- `root.after_cancel(self.after_id); self.after_id = None`, guarded by
`if self.after_id:` — one live timer is retired when a handle is held. -/
def cancelTimer (s : Slideshow) : Slideshow :=
  match s.afterId with
  | some _ => { s with afterId := none, liveTimers := s.liveTimers - 1 }
  | none => s

/-- `self.after_id = self.root.after(self.interval, self.show_image)` — a
fresh handle is issued and one more timer is live. -/
def armTimer (s : Slideshow) : Slideshow :=
  { s with afterId := some s.nextHandle, nextHandle := s.nextHandle + 1,
           liveTimers := s.liveTimers + 1 }

/-- `schedule_show_image`: cancel any held timer first, then arm a new one
only while running and not paused. -/
def schedule_show_image (s : Slideshow) : Slideshow :=
  let s1 := cancelTimer s
  if s1.isRunning && !s1.paused then armTimer s1 else s1

/-- `exit_slideshow`: clear the running flag and cancel any held timer
(the source also destroys the window, an external effect). -/
def exit_slideshow (s : Slideshow) : Slideshow :=
  cancelTimer { s with isRunning := false }

/-- The tail of `show_image` after the end-of-list check: look up the entry
at the current index, try to render it (the decode oracle `ok` judges the
path). On success the index advances and, when not paused, the timer is
rescheduled; on a decode failure the index advances and `schedule_show_image`
is called unconditionally. Returns the new state and the rendered entry,
if any. -/
def render_step (ok : List Char → Bool) (s : Slideshow) :
    Slideshow × Option (List Char × List Char) :=
  let entry := s.imagePaths.getD s.currentImageIndex ([], [])
  if ok entry.1 then
    let s1 := { s with currentImageIndex := s.currentImageIndex + 1 }
    let s2 := if s1.paused then s1 else schedule_show_image s1
    (s2, some entry)
  else
    let s1 := { s with currentImageIndex := s.currentImageIndex + 1 }
    (schedule_show_image s1, none)

/-- `show_image`: do nothing when not running; at or past the end of the
list either wrap to index 0 (looping) or exit without rendering
(not looping); otherwise render the current entry via `render_step`. -/
def show_image (ok : List Char → Bool) (s : Slideshow) :
    Slideshow × Option (List Char × List Char) :=
  if s.isRunning = false then (s, none)
  else if s.imagePaths.length ≤ s.currentImageIndex then
    if s.isLooping then render_step ok { s with currentImageIndex := 0 }
    else (exit_slideshow s, none)
  else render_step ok s

/-- `show_next` forwards to `show_image`. -/
def show_next (ok : List Char → Bool) (s : Slideshow) :
    Slideshow × Option (List Char × List Char) :=
  show_image ok s

/-- `show_previous`: only when the index is positive, decrease it by 2
clamped at 0 (`self.current_image_index -= 2; if < 0: = 0`) and run
`show_image`. -/
def show_previous (ok : List Char → Bool) (s : Slideshow) :
    Slideshow × Option (List Char × List Char) :=
  if 0 < s.currentImageIndex then
    show_image ok
      { s with currentImageIndex :=
          if 2 ≤ s.currentImageIndex then s.currentImageIndex - 2 else 0 }
  else (s, none)

/-- `toggle_pause`: resuming clears the flag and reschedules; pausing sets
the flag and cancels any held timer. -/
def toggle_pause (s : Slideshow) : Slideshow :=
  if s.paused then schedule_show_image { s with paused := false }
  else cancelTimer { s with paused := true }

/-- `toggle_loop` flips the looping flag and nothing else. -/
def toggle_loop (s : Slideshow) : Slideshow :=
  { s with isLooping := !s.isLooping }

/-- `update_interval(value)`: with the parsed integer positive, store the
new interval in milliseconds and, when not paused, reschedule; otherwise
leave the state untouched. -/
def update_interval (v : Int) (s : Slideshow) : Slideshow :=
  if 0 < v then
    let s1 := { s with interval := v.toNat * 1000 }
    if s1.paused then s1 else schedule_show_image s1
  else s

/-- The state built by `ImageSlideshow.__init__` just before its initial
`show_image` call: `start_slideshow` passes a validated positive
whole-second interval, discovery has produced a nonempty entry list,
index 0, running, not paused, no timer armed. -/
def initState (entries : List (List Char × List Char)) (looping : Bool)
    (intervalSeconds : Nat) : Slideshow :=
  { imagePaths := entries, currentImageIndex := 0, isRunning := true,
    paused := false, isLooping := looping,
    interval := intervalSeconds * 1000, afterId := none, nextHandle := 0,
    liveTimers := 0 }

/-- One scheduler transition: a timer tick or manual next (`show_image`),
manual previous, pause/resume toggle, loop toggle, an interval update from
the slider, or exit. -/
inductive Step : Slideshow → Slideshow → Prop
  | showStep (ok : List Char → Bool) (s : Slideshow) : Step s (show_image ok s).1
  | prevStep (ok : List Char → Bool) (s : Slideshow) : Step s (show_previous ok s).1
  | pauseStep (s : Slideshow) : Step s (toggle_pause s)
  | loopStep (s : Slideshow) : Step s (toggle_loop s)
  | setIntervalStep (v : Int) (s : Slideshow) : Step s (update_interval v s)
  | exitStep (s : Slideshow) : Step s (exit_slideshow s)

/-- States reachable from a freshly constructed slideshow by scheduler
transitions. -/
inductive Reachable : Slideshow → Prop
  | init (entries : List (List Char × List Char)) (looping : Bool)
      (k : Nat) (hne : entries ≠ []) (hk : 1 ≤ k) :
      Reachable (initState entries looping k)
  | step {s s' : Slideshow} : Reachable s → Step s s' → Reachable s'

/-- The scheduler invariant: the held handle accounts exactly for the live
timers, a handle is held only while running and not paused, the interval
never drops below one second, the index stays within the (nonempty) entry
list. -/
def SchedInv (s : Slideshow) : Prop :=
  s.liveTimers = (if s.afterId.isSome then 1 else 0)
  ∧ (s.afterId.isSome = true → s.isRunning = true ∧ s.paused = false)
  ∧ 1000 ≤ s.interval
  ∧ s.currentImageIndex ≤ s.imagePaths.length
  ∧ s.imagePaths ≠ []

/-- A decode oracle under which every image renders. -/
def okAll : List Char → Bool := fun _ => true

/-- A concrete three-entry playlist. -/
def entries3 : List (List Char × List Char) :=
  [("p0.png".data, "f".data), ("p1.png".data, "f".data), ("p2.png".data, "f".data)]

/-- Iterate the `show_image` transition (an Advance call) `n` times. -/
def advanceTimes (ok : List Char → Bool) : Nat → Slideshow → Slideshow
  | 0, s => s
  | n + 1, s => advanceTimes ok n (show_image ok s).1

/-- A decode oracle that fails exactly on one path. -/
def okExcept (bad : List Char) : List Char → Bool :=
  fun p => decide (p ≠ bad)

/-- Discovery options with every feature off: no skip, no pattern. -/
def defaultOptions : DiscoveryOptions :=
  { skipFirstImage := false, regexPattern := none,
    handleUnmatched := HandleUnmatched.show_all }

/-- The pattern oracle of the spec's example: the name Full12Pieces matches
with captured count 12. -/
def fullPattern : List Char → Option Nat :=
  fun name => if name = "Full12Pieces".data then some 12 else none

/-- Options for the C2 example: skip the first image, cap via the pattern. -/
def capOptions : DiscoveryOptions :=
  { skipFirstImage := true, regexPattern := some fullPattern,
    handleUnmatched := HandleUnmatched.show_all }

/-- Twenty image files img1.png .. img20.png. -/
def twentyFiles : List (List Char) :=
  (List.range 20).map (fun i => ("img" ++ toString (i + 1) ++ ".png").data)

theorem cancelTimer_afterId (s : Slideshow) : (cancelTimer s).afterId = none := by
  obtain ⟨p, i, r, ps, l, iv, aid, nh, lt⟩ := s
  cases aid <;> rfl

theorem cancelTimer_fields (s : Slideshow) :
    (cancelTimer s).imagePaths = s.imagePaths
    ∧ (cancelTimer s).currentImageIndex = s.currentImageIndex
    ∧ (cancelTimer s).isRunning = s.isRunning
    ∧ (cancelTimer s).paused = s.paused
    ∧ (cancelTimer s).isLooping = s.isLooping
    ∧ (cancelTimer s).interval = s.interval
    ∧ (cancelTimer s).nextHandle = s.nextHandle := by
  obtain ⟨p, i, r, ps, l, iv, aid, nh, lt⟩ := s
  cases aid <;> exact ⟨rfl, rfl, rfl, rfl, rfl, rfl, rfl⟩

theorem cancelTimer_liveTimers (s : Slideshow)
    (h : s.liveTimers = (if s.afterId.isSome then 1 else 0)) :
    (cancelTimer s).liveTimers = 0 := by
  obtain ⟨p, i, r, ps, l, iv, aid, nh, lt⟩ := s
  cases aid <;> simp [cancelTimer] at h ⊢ <;> simp [h]

theorem schedule_fields (s : Slideshow) :
    (schedule_show_image s).imagePaths = s.imagePaths
    ∧ (schedule_show_image s).currentImageIndex = s.currentImageIndex
    ∧ (schedule_show_image s).isRunning = s.isRunning
    ∧ (schedule_show_image s).paused = s.paused
    ∧ (schedule_show_image s).isLooping = s.isLooping
    ∧ (schedule_show_image s).interval = s.interval := by
  obtain ⟨p, i, r, ps, l, iv, aid, nh, lt⟩ := s
  cases aid <;> cases r <;> cases ps <;>
    simp [schedule_show_image, cancelTimer, armTimer]

theorem schedule_afterId (s : Slideshow) :
    (schedule_show_image s).afterId
      = (if s.isRunning && !s.paused then some s.nextHandle else none) := by
  obtain ⟨p, i, r, ps, l, iv, aid, nh, lt⟩ := s
  cases aid <;> cases r <;> cases ps <;>
    simp [schedule_show_image, cancelTimer, armTimer]

theorem schedule_liveTimers (s : Slideshow)
    (h : s.liveTimers = (if s.afterId.isSome then 1 else 0)) :
    (schedule_show_image s).liveTimers
      = (if s.isRunning && !s.paused then 1 else 0) := by
  obtain ⟨p, i, r, ps, l, iv, aid, nh, lt⟩ := s
  cases aid <;> cases r <;> cases ps <;>
    simp [schedule_show_image, cancelTimer, armTimer] at h ⊢ <;> simp [h]

theorem schedInv_schedule (s : Slideshow) (h : SchedInv s) :
    SchedInv (schedule_show_image s) := by
  obtain ⟨h1, h2, h3, h4, h5⟩ := h
  obtain ⟨f1, f2, f3, f4, f5, f6⟩ := schedule_fields s
  refine ⟨?_, ?_, ?_, ?_, ?_⟩
  · rw [schedule_liveTimers s h1, schedule_afterId s]
    split <;> simp
  · rw [schedule_afterId s, f3, f4]
    split <;> simp_all
  · rw [f6]; exact h3
  · rw [f2, f1]; exact h4
  · rw [f1]; exact h5

theorem schedInv_cancel (s : Slideshow) (h : SchedInv s) :
    SchedInv (cancelTimer s) := by
  obtain ⟨h1, h2, h3, h4, h5⟩ := h
  obtain ⟨f1, f2, f3, f4, f5, f6, f7⟩ := cancelTimer_fields s
  refine ⟨?_, ?_, ?_, ?_, ?_⟩
  · rw [cancelTimer_liveTimers s h1, cancelTimer_afterId s]; simp
  · rw [cancelTimer_afterId s]; simp
  · rw [f6]; exact h3
  · rw [f2, f1]; exact h4
  · rw [f1]; exact h5

theorem schedInv_cancel_any (s : Slideshow)
    (h1 : s.liveTimers = (if s.afterId.isSome then 1 else 0))
    (h3 : 1000 ≤ s.interval)
    (h4 : s.currentImageIndex ≤ s.imagePaths.length)
    (h5 : s.imagePaths ≠ []) : SchedInv (cancelTimer s) := by
  obtain ⟨f1, f2, f3, f4, f5, f6, f7⟩ := cancelTimer_fields s
  refine ⟨?_, ?_, ?_, ?_, ?_⟩
  · rw [cancelTimer_liveTimers s h1, cancelTimer_afterId s]; simp
  · rw [cancelTimer_afterId s]; simp
  · rw [f6]; exact h3
  · rw [f2, f1]; exact h4
  · rw [f1]; exact h5

theorem schedInv_exit (s : Slideshow) (h : SchedInv s) :
    SchedInv (exit_slideshow s) := by
  obtain ⟨h1, h2, h3, h4, h5⟩ := h
  exact schedInv_cancel_any { s with isRunning := false } h1 h3 h4 h5

theorem schedInv_render_step (ok : List Char → Bool) (s : Slideshow)
    (h : SchedInv s) (hidx : s.currentImageIndex < s.imagePaths.length) :
    SchedInv (render_step ok s).1 := by
  have hs1 : SchedInv { s with currentImageIndex := s.currentImageIndex + 1 } :=
    ⟨h.1, h.2.1, h.2.2.1, Nat.succ_le_of_lt hidx, h.2.2.2.2⟩
  unfold render_step
  dsimp only
  split
  · split
    · exact hs1
    · exact schedInv_schedule _ hs1
  · exact schedInv_schedule _ hs1

theorem schedInv_show_image (ok : List Char → Bool) (s : Slideshow)
    (h : SchedInv s) : SchedInv (show_image ok s).1 := by
  unfold show_image
  split
  · exact h
  · split
    · split
      · refine schedInv_render_step ok _ ⟨h.1, h.2.1, h.2.2.1, ?_, h.2.2.2.2⟩ ?_
        · exact Nat.zero_le _
        · exact List.length_pos.mpr h.2.2.2.2
      · exact schedInv_exit s h
    · rename_i hrun hlt
      exact schedInv_render_step ok s h (Nat.lt_of_not_le hlt)

theorem schedInv_show_previous (ok : List Char → Bool) (s : Slideshow)
    (h : SchedInv s) : SchedInv (show_previous ok s).1 := by
  unfold show_previous
  split
  · refine schedInv_show_image ok _ ⟨h.1, h.2.1, h.2.2.1, ?_, h.2.2.2.2⟩
    split
    · exact le_trans (Nat.sub_le _ _) h.2.2.2.1
    · exact Nat.zero_le _
  · exact h

theorem schedInv_toggle_pause (s : Slideshow) (h : SchedInv s) :
    SchedInv (toggle_pause s) := by
  obtain ⟨h1, h2, h3, h4, h5⟩ := h
  unfold toggle_pause
  split
  · refine schedInv_schedule _ ⟨h1, ?_, h3, h4, h5⟩
    intro hsome
    exact ⟨(h2 hsome).1, rfl⟩
  · exact schedInv_cancel_any { s with paused := true } h1 h3 h4 h5

theorem schedInv_toggle_loop (s : Slideshow) (h : SchedInv s) :
    SchedInv (toggle_loop s) := by
  obtain ⟨h1, h2, h3, h4, h5⟩ := h
  exact ⟨h1, h2, h3, h4, h5⟩

theorem schedInv_update_interval (v : Int) (s : Slideshow) (h : SchedInv s) :
    SchedInv (update_interval v s) := by
  obtain ⟨h1, h2, h3, h4, h5⟩ := h
  unfold update_interval
  split
  · rename_i hv
    have hiv : 1000 ≤ v.toNat * 1000 := by
      have : 1 ≤ v.toNat := by omega
      omega
    have hs1 : SchedInv { s with interval := v.toNat * 1000 } :=
      ⟨h1, h2, hiv, h4, h5⟩
    dsimp only
    split
    · exact hs1
    · exact schedInv_schedule _ hs1
  · exact ⟨h1, h2, h3, h4, h5⟩

theorem schedInv_init (entries : List (List Char × List Char)) (looping : Bool)
    (k : Nat) (hne : entries ≠ []) (hk : 1 ≤ k) :
    SchedInv (initState entries looping k) := by
  refine ⟨rfl, ?_, ?_, Nat.zero_le _, hne⟩
  · intro hsome; cases hsome
  · simpa [initState] using Nat.mul_le_mul_right 1000 hk

theorem reachable_schedInv (s : Slideshow) (h : Reachable s) : SchedInv s := by
  induction h with
  | init entries looping k hne hk => exact schedInv_init entries looping k hne hk
  | step _ hs ih =>
    cases hs with
    | showStep ok => exact schedInv_show_image ok _ ih
    | prevStep ok => exact schedInv_show_previous ok _ ih
    | pauseStep => exact schedInv_toggle_pause _ ih
    | loopStep => exact schedInv_toggle_loop _ ih
    | setIntervalStep v => exact schedInv_update_interval v _ ih
    | exitStep => exact schedInv_exit _ ih

theorem clamp_two_sub (i : Nat) : (if 2 ≤ i then i - 2 else 0) = i - 2 := by
  split <;> omega

theorem render_step_success (ok : List Char → Bool) (s : Slideshow)
    (hok : ok (s.imagePaths.getD s.currentImageIndex ([], [])).1 = true) :
    (render_step ok s).2 = some (s.imagePaths.getD s.currentImageIndex ([], []))
    ∧ (render_step ok s).1.currentImageIndex = s.currentImageIndex + 1
    ∧ (render_step ok s).1.paused = s.paused
    ∧ (render_step ok s).1.isRunning = s.isRunning
    ∧ (render_step ok s).1.imagePaths = s.imagePaths
    ∧ (s.paused = true →
        (render_step ok s).1.afterId = s.afterId
        ∧ (render_step ok s).1.liveTimers = s.liveTimers)
    ∧ (s.paused = false →
        (render_step ok s).1.afterId
          = (if s.isRunning then some s.nextHandle else none)) := by
  obtain ⟨p, i, r, ps, l, iv, aid, nh, lt⟩ := s
  cases ps <;> cases r <;> cases aid <;>
    simp_all [render_step, schedule_show_image, cancelTimer, armTimer]

theorem render_step_fail (ok : List Char → Bool) (s : Slideshow)
    (hok : ok (s.imagePaths.getD s.currentImageIndex ([], [])).1 = false) :
    (render_step ok s).2 = none
    ∧ (render_step ok s).1.currentImageIndex = s.currentImageIndex + 1
    ∧ (render_step ok s).1.paused = s.paused
    ∧ (render_step ok s).1.isRunning = s.isRunning
    ∧ (render_step ok s).1.imagePaths = s.imagePaths
    ∧ (render_step ok s).1.afterId
        = (if s.isRunning && !s.paused then some s.nextHandle else none) := by
  obtain ⟨p, i, r, ps, l, iv, aid, nh, lt⟩ := s
  cases ps <;> cases r <;> cases aid <;>
    simp_all [render_step, schedule_show_image, cancelTimer, armTimer]

theorem show_image_mid (ok : List Char → Bool) (s : Slideshow)
    (hrun : s.isRunning = true)
    (hlt : s.currentImageIndex < s.imagePaths.length) :
    show_image ok s = render_step ok s := by
  unfold show_image
  rw [hrun]
  simp [Nat.not_le.mpr hlt]



/-- C1: end-of-list rule. When a display is due with the position at the
length of the entry list, a looping slideshow resets the position to 0 and
renders entry 0 (the position then being 1), while a non-looping slideshow
stops without rendering; concretely, with 3 entries and looping off, three
Advance calls render entries 0, 1, 2, the fourth stops playback and renders
nothing, and with looping on the fourth renders entry 0 again. -/
theorem end_of_list_rule (ok : List Char → Bool) (s : Slideshow)
    (hrun : s.isRunning = true)
    (hend : s.currentImageIndex = s.imagePaths.length) :
    (s.isLooping = true →
      ok (s.imagePaths.getD 0 ([], [])).1 = true →
      (show_image ok s).2 = some (s.imagePaths.getD 0 ([], []))
        ∧ (show_image ok s).1.currentImageIndex = 1)
    ∧ (s.isLooping = false →
      (show_image ok s).1.isRunning = false ∧ (show_image ok s).2 = none)
    ∧ ((show_image okAll (initState entries3 false 1)).2
          = some ("p0.png".data, "f".data)
      ∧ (show_image okAll (advanceTimes okAll 1 (initState entries3 false 1))).2
          = some ("p1.png".data, "f".data)
      ∧ (show_image okAll (advanceTimes okAll 2 (initState entries3 false 1))).2
          = some ("p2.png".data, "f".data)
      ∧ (show_image okAll (advanceTimes okAll 3 (initState entries3 false 1))).2
          = none
      ∧ (advanceTimes okAll 4 (initState entries3 false 1)).isRunning = false
      ∧ (show_image okAll (advanceTimes okAll 3 (initState entries3 true 1))).2
          = some ("p0.png".data, "f".data)) := by
  refine ⟨?_, ?_, by decide⟩
  · intro hloop hok
    have hrw : show_image ok s = render_step ok { s with currentImageIndex := 0 } := by
      unfold show_image
      rw [hrun, hloop]
      simp [hend]
    have hz : ok (({ s with currentImageIndex := 0 } :
        Slideshow).imagePaths.getD ({ s with currentImageIndex := 0 } :
        Slideshow).currentImageIndex ([], [])).1 = true := by
      simpa using hok
    obtain ⟨r1, r2, -, -, -, -, -⟩ :=
      render_step_success ok { s with currentImageIndex := 0 } hz
    rw [hrw]
    exact ⟨by simpa using r1, by simpa using r2⟩
  · intro hloop
    have hrw : show_image ok s = (exit_slideshow s, none) := by
      unfold show_image
      rw [hrun, hloop]
      simp [hend]
    rw [hrw]
    obtain ⟨-, -, f3, -, -, -, -⟩ := cancelTimer_fields { s with isRunning := false }
    exact ⟨f3, rfl⟩

/-- Witness for C1 at a concrete reachable end-of-list state. -/
theorem end_of_list_rule_witness :
    ((advanceTimes okAll 3 (initState entries3 false 1)).isRunning = true
      ∧ (advanceTimes okAll 3 (initState entries3 false 1)).currentImageIndex
          = (advanceTimes okAll 3 (initState entries3 false 1)).imagePaths.length)
    ∧ ((show_image okAll (advanceTimes okAll 3 (initState entries3 false 1))).1.isRunning
          = false
      ∧ (show_image okAll (advanceTimes okAll 3 (initState entries3 false 1))).2
          = none) :=
  ⟨⟨by decide, by decide⟩,
    (end_of_list_rule okAll (advanceTimes okAll 3 (initState entries3 false 1))
      (by decide) (by decide)).2.1 (by decide)⟩

/-- C4: retreat semantics. From any running state with a positive position
(within the list), `show_previous` first clamps the position to
`position - 2` (at least 0), then behaves like an Advance: it renders the
entry at the clamped position and increments the position past it; at the
boundary position 1 the clamp lands on 0 and entry 0 is re-rendered. When
not paused it also re-arms the timer, as a fresh Advance would. -/
theorem retreat_semantics (ok : List Char → Bool) (s : Slideshow)
    (hrun : s.isRunning = true)
    (hpos : 0 < s.currentImageIndex)
    (hle : s.currentImageIndex ≤ s.imagePaths.length)
    (hok : ok (s.imagePaths.getD (s.currentImageIndex - 2) ([], [])).1 = true) :
    (show_previous ok s).2
        = some (s.imagePaths.getD (s.currentImageIndex - 2) ([], []))
    ∧ (show_previous ok s).1.currentImageIndex = (s.currentImageIndex - 2) + 1
    ∧ (s.currentImageIndex = 1 →
        (show_previous ok s).2 = some (s.imagePaths.getD 0 ([], [])))
    ∧ (s.paused = false → (show_previous ok s).1.afterId.isSome = true) := by
  have hclamp := clamp_two_sub s.currentImageIndex
  have hrw : show_previous ok s
      = show_image ok { s with currentImageIndex := s.currentImageIndex - 2 } := by
    unfold show_previous
    rw [if_pos hpos, hclamp]
  have hlt : ({ s with currentImageIndex := s.currentImageIndex - 2 } :
      Slideshow).currentImageIndex
      < ({ s with currentImageIndex := s.currentImageIndex - 2 } :
        Slideshow).imagePaths.length := by
    dsimp only
    omega
  have hmid := show_image_mid ok
    { s with currentImageIndex := s.currentImageIndex - 2 } hrun hlt
  have hz : ok (({ s with currentImageIndex := s.currentImageIndex - 2 } :
      Slideshow).imagePaths.getD
      ({ s with currentImageIndex := s.currentImageIndex - 2 } :
        Slideshow).currentImageIndex ([], [])).1 = true := by
    simpa using hok
  obtain ⟨r1, r2, -, -, -, -, r7⟩ :=
    render_step_success ok { s with currentImageIndex := s.currentImageIndex - 2 } hz
  rw [hrw, hmid]
  refine ⟨by simpa using r1, by simpa using r2, ?_, ?_⟩
  · intro h1
    rw [h1] at r1 ⊢
    simpa using r1
  · intro hp
    have := r7 hp
    rw [this]
    dsimp only
    rw [hrun]
    simp

/-- Witness for C4 at the boundary state with position 1. -/
theorem retreat_semantics_witness :
    (show_previous okAll (advanceTimes okAll 1 (initState entries3 false 1))).2
      = some ((advanceTimes okAll 1 (initState entries3 false 1)).imagePaths.getD
          ((advanceTimes okAll 1 (initState entries3 false 1)).currentImageIndex - 2)
          ([], [])) :=
  (retreat_semantics okAll (advanceTimes okAll 1 (initState entries3 false 1))
    (by decide) (by decide) (by decide) (by decide)).1



/-- C5: bad-file skip. When rendering the current entry fails during a
running Advance, nothing is rendered, the position advances by exactly one,
playback keeps running, the timer is rescheduled (when not paused), and the
next display renders the entry one past the failed one. -/
theorem bad_file_skip (ok ok2 : List Char → Bool) (s : Slideshow)
    (hrun : s.isRunning = true)
    (hlt : s.currentImageIndex < s.imagePaths.length)
    (hbad : ok (s.imagePaths.getD s.currentImageIndex ([], [])).1 = false) :
    (show_image ok s).2 = none
    ∧ (show_image ok s).1.currentImageIndex = s.currentImageIndex + 1
    ∧ (show_image ok s).1.isRunning = true
    ∧ (s.paused = false → (show_image ok s).1.afterId = some s.nextHandle)
    ∧ (s.currentImageIndex + 1 < s.imagePaths.length →
        ok2 (s.imagePaths.getD (s.currentImageIndex + 1) ([], [])).1 = true →
        (show_image ok2 (show_image ok s).1).2
          = some (s.imagePaths.getD (s.currentImageIndex + 1) ([], []))) := by
  have hmid := show_image_mid ok s hrun hlt
  obtain ⟨f1, f2, f3, f4, f5, f6⟩ := render_step_fail ok s hbad
  rw [hmid]
  refine ⟨f1, f2, by rw [f4]; exact hrun, ?_, ?_⟩
  · intro hp
    rw [f6, hrun, hp]
    simp
  · intro h1 h2
    have hrun2 : (render_step ok s).1.isRunning = true := by rw [f4]; exact hrun
    have hlt2 : (render_step ok s).1.currentImageIndex
        < (render_step ok s).1.imagePaths.length := by
      rw [f2, f5]; exact h1
    have hz : ok2 ((render_step ok s).1.imagePaths.getD
        (render_step ok s).1.currentImageIndex ([], [])).1 = true := by
      rw [f2, f5]; exact h2
    have hmid2 := show_image_mid ok2 (render_step ok s).1 hrun2 hlt2
    obtain ⟨g1, -, -, -, -, -, -⟩ := render_step_success ok2 (render_step ok s).1 hz
    rw [hmid2, g1, f2, f5]

/-- Witness for C5: entry at position 1 fails to decode; the next display
shows the entry at position 2. -/
theorem bad_file_skip_witness :
    (show_image (okExcept "p1.png".data)
        (advanceTimes okAll 1 (initState entries3 true 1))).2 = none
    ∧ (show_image okAll
        (show_image (okExcept "p1.png".data)
          (advanceTimes okAll 1 (initState entries3 true 1))).1).2
      = some ((advanceTimes okAll 1 (initState entries3 true 1)).imagePaths.getD
          ((advanceTimes okAll 1 (initState entries3 true 1)).currentImageIndex + 1)
          ([], [])) := by
  have h := bad_file_skip (okExcept "p1.png".data) okAll
    (advanceTimes okAll 1 (initState entries3 true 1))
    (by decide) (by decide) (by decide)
  exact ⟨h.1, h.2.2.2.2 (by decide) (by decide)⟩

/-- C10: manual navigation while paused. In a running, paused state with no
armed timer, a manual Advance renders the current entry and increments the
position, and a manual Retreat renders the clamped previous entry, but both
leave the paused flag set and arm no timer, so automatic playback stays
suspended. -/
theorem paused_manual_navigation (ok : List Char → Bool) (s : Slideshow)
    (hrun : s.isRunning = true) (hp : s.paused = true)
    (hid : s.afterId = none) :
    (s.currentImageIndex < s.imagePaths.length →
      ok (s.imagePaths.getD s.currentImageIndex ([], [])).1 = true →
      (show_image ok s).2 = some (s.imagePaths.getD s.currentImageIndex ([], []))
      ∧ (show_image ok s).1.currentImageIndex = s.currentImageIndex + 1
      ∧ (show_image ok s).1.paused = true
      ∧ (show_image ok s).1.afterId = none
      ∧ (show_image ok s).1.liveTimers = s.liveTimers)
    ∧ (0 < s.currentImageIndex → s.currentImageIndex ≤ s.imagePaths.length →
      ok (s.imagePaths.getD (s.currentImageIndex - 2) ([], [])).1 = true →
      (show_previous ok s).2
        = some (s.imagePaths.getD (s.currentImageIndex - 2) ([], []))
      ∧ (show_previous ok s).1.paused = true
      ∧ (show_previous ok s).1.afterId = none) := by
  constructor
  · intro hlt hok
    have hmid := show_image_mid ok s hrun hlt
    obtain ⟨r1, r2, r3, -, -, r6, -⟩ := render_step_success ok s hok
    obtain ⟨ha, hl⟩ := r6 hp
    rw [hmid]
    exact ⟨r1, r2, by rw [r3]; exact hp, by rw [ha]; exact hid, hl⟩
  · intro hpos hle hok
    have hclamp := clamp_two_sub s.currentImageIndex
    have hrw : show_previous ok s
        = show_image ok { s with currentImageIndex := s.currentImageIndex - 2 } := by
      unfold show_previous
      rw [if_pos hpos, hclamp]
    have hlt : ({ s with currentImageIndex := s.currentImageIndex - 2 } :
        Slideshow).currentImageIndex
        < ({ s with currentImageIndex := s.currentImageIndex - 2 } :
          Slideshow).imagePaths.length := by
      dsimp only
      omega
    have hmid := show_image_mid ok
      { s with currentImageIndex := s.currentImageIndex - 2 } hrun hlt
    have hz : ok (({ s with currentImageIndex := s.currentImageIndex - 2 } :
        Slideshow).imagePaths.getD
        ({ s with currentImageIndex := s.currentImageIndex - 2 } :
          Slideshow).currentImageIndex ([], [])).1 = true := by
      simpa using hok
    obtain ⟨r1, -, r3, -, -, r6, -⟩ :=
      render_step_success ok { s with currentImageIndex := s.currentImageIndex - 2 } hz
    obtain ⟨ha, -⟩ := r6 hp
    rw [hrw, hmid]
    exact ⟨by simpa using r1, by rw [r3]; exact hp, by rw [ha]; exact hid⟩

/-- Witness for C10 at a concrete paused state reached by one Advance and a
pause. -/
theorem paused_manual_navigation_witness :
    (show_image okAll
        (toggle_pause (advanceTimes okAll 1 (initState entries3 true 1)))).1.paused
      = true
    ∧ (show_image okAll
        (toggle_pause (advanceTimes okAll 1 (initState entries3 true 1)))).1.afterId
      = none
    ∧ (show_previous okAll
        (toggle_pause (advanceTimes okAll 1 (initState entries3 true 1)))).1.afterId
      = none := by
  have h := paused_manual_navigation okAll
    (toggle_pause (advanceTimes okAll 1 (initState entries3 true 1)))
    (by decide) (by decide) (by decide)
  have h1 := h.1 (by decide) (by decide)
  have h2 := h.2 (by decide) (by decide) (by decide)
  exact ⟨h1.2.2.1, h1.2.2.2.1, h2.2.2⟩

/-- C3: timer exclusivity. In every reachable scheduler state at most one
timer is live, a handle is held only while running and not paused,
rescheduling keeps at most one timer live (cancel-then-arm), and pausing
from an active state or stopping cancels any live timer. -/
theorem timer_exclusivity (s : Slideshow) (h : Reachable s) :
    s.liveTimers ≤ 1
    ∧ (s.afterId.isSome = true → s.isRunning = true ∧ s.paused = false)
    ∧ (schedule_show_image s).liveTimers ≤ 1
    ∧ (s.paused = false →
        (toggle_pause s).afterId = none ∧ (toggle_pause s).liveTimers = 0)
    ∧ (exit_slideshow s).afterId = none
    ∧ (exit_slideshow s).liveTimers = 0 := by
  have hinv := reachable_schedInv s h
  obtain ⟨p, i, r, ps, l, iv, aid, nh, lt⟩ := s
  obtain ⟨h1, h2, h3, h4, h5⟩ := hinv
  cases ps <;> cases r <;> cases aid <;>
    simp_all [toggle_pause, exit_slideshow, schedule_show_image, cancelTimer,
      armTimer]

/-- Witness for C3 at the freshly constructed state. -/
theorem timer_exclusivity_witness :
    (initState entries3 true 1).liveTimers ≤ 1
    ∧ (exit_slideshow (initState entries3 true 1)).afterId = none := by
  have h := timer_exclusivity (initState entries3 true 1)
    (Reachable.init entries3 true 1 (by decide) (by decide))
  exact ⟨h.1, h.2.2.2.2.1⟩

/-- C8: interval validation. Every reachable state keeps the interval at or
above 1000 milliseconds; a non-positive update is rejected and leaves the
state untouched; an accepted update stores the new interval, does not move
the position (no forced advance), and in a running unpaused state cancels
the held timer and arms a fresh one. -/
theorem interval_validation (s t : Slideshow) (v : Int) (h : Reachable s) :
    1000 ≤ s.interval
    ∧ (v ≤ 0 → update_interval v t = t)
    ∧ (0 < v →
        (update_interval v t).interval = v.toNat * 1000
        ∧ (update_interval v t).currentImageIndex = t.currentImageIndex
        ∧ (t.isRunning = true → t.paused = false →
            (update_interval v t).afterId = some t.nextHandle
            ∧ (update_interval v t).paused = false)) := by
  obtain ⟨-, -, h3, -, -⟩ := reachable_schedInv s h
  refine ⟨h3, ?_, ?_⟩
  · intro hv
    unfold update_interval
    rw [if_neg (by omega)]
  · intro hv
    obtain ⟨p, i, r, ps, l, iv, aid, nh, lt⟩ := t
    cases ps <;> cases r <;> cases aid <;>
      simp_all [update_interval, schedule_show_image, cancelTimer, armTimer]

/-- Witness for C8: a rejected update of 0 and an accepted update of 5
seconds at a concrete running state. -/
theorem interval_validation_witness :
    1000 ≤ (initState entries3 true 8).interval
    ∧ (update_interval 0 (initState entries3 true 8)
        = initState entries3 true 8)
    ∧ (update_interval 5 (initState entries3 true 8)).interval = 5 * 1000 := by
  have h := interval_validation (initState entries3 true 8)
    (initState entries3 true 8) 0 (Reachable.init entries3 true 8 (by decide) (by decide))
  have h5 := interval_validation (initState entries3 true 8)
    (initState entries3 true 8) 5 (Reachable.init entries3 true 8 (by decide) (by decide))
  exact ⟨h.1, h.2.1 (by omega), (h5.2.2 (by omega)).1⟩



/-- C6: natural order. The key of a name is its digit-run decomposition —
digit runs as integers, other segments lower-cased — compared run by run;
hence the key of img2 precedes the key of img10, case differences do not
affect keys, and discovery's sort puts img1.png, img2.png, img10.png in
that order. -/
theorem natural_order_sorting :
    ltNKeys (natural_keys "img2".data) (natural_keys "img10".data) = true
    ∧ natural_keys "img2".data = [NKey.s "img".data, NKey.n 2, NKey.s []]
    ∧ natural_keys "img10".data = [NKey.s "img".data, NKey.n 10, NKey.s []]
    ∧ (∀ a b : Nat, ltNKey (NKey.n a) (NKey.n b) = decide (a < b))
    ∧ natural_keys "IMG2".data = natural_keys "img2".data
    ∧ sortByKey natural_keys ["img2.png".data, "img10.png".data, "img1.png".data]
        = ["img1.png".data, "img2.png".data, "img10.png".data] := by
  exact ⟨by decide, by decide, by decide, fun a b => rfl, by decide, by decide⟩

/-- C7: leaf-only collection. A readable directory with at least one
subdirectory yields exactly the concatenation of the recursive results over
its subdirectories in natural order — its direct files contribute nothing
(the result does not depend on them); concretely, a root holding a.png
directly plus a leaf subfolder yields only the subfolder's images. -/
theorem leaf_only_collection (o : DiscoveryOptions) (fuel : Nat)
    (curPath dn : List Char) (files : List (List Char)) (subdirs : List Dir)
    (hsub : subdirs ≠ []) :
    collect_images_dfs o (fuel + 1) curPath (Dir.mk dn true files subdirs)
      = ((sortByKey (fun c => natural_keys (joinPath curPath c.dname)) subdirs).map
          (fun c => collect_images_dfs o fuel (joinPath curPath c.dname) c)).flatten
    ∧ collect_images_dfs o (fuel + 1) curPath (Dir.mk dn true files subdirs)
      = collect_images_dfs o (fuel + 1) curPath (Dir.mk dn true [] subdirs)
    ∧ collect_images_dfs defaultOptions 2 "root".data
        (Dir.mk "root".data true ["a.png".data]
          [Dir.mk "sub".data true ["b1.png".data, "b2.png".data] []])
      = [("root/sub/b1.png".data, "sub".data), ("root/sub/b2.png".data, "sub".data)] := by
  have hemp : subdirs.isEmpty = false := by
    cases subdirs with
    | nil => exact absurd rfl hsub
    | cons a l => rfl
  refine ⟨?_, ?_, by decide⟩
  · simp [collect_images_dfs, hemp]
  · simp [collect_images_dfs, hemp]

/-- Witness for C7: the direct file a.png contributes nothing. -/
theorem leaf_only_collection_witness :
    collect_images_dfs defaultOptions 2 "root".data
        (Dir.mk "root".data true ["a.png".data]
          [Dir.mk "sub".data true ["b1.png".data, "b2.png".data] []])
      = collect_images_dfs defaultOptions 2 "root".data
        (Dir.mk "root".data true []
          [Dir.mk "sub".data true ["b1.png".data, "b2.png".data] []]) :=
  (leaf_only_collection defaultOptions 1 "root".data "root".data ["a.png".data]
    [Dir.mk "sub".data true ["b1.png".data, "b2.png".data] []]
    (List.cons_ne_nil _ _)).2.1

/-- C9: unreadable-directory recovery. A directory whose listing fails
contributes nothing at all (its whole subtree included), and traversal of
its siblings continues: with an unreadable first child and a readable
second one, exactly the second child's images are collected. -/
theorem unreadable_directory_skip (o : DiscoveryOptions) (fuel : Nat)
    (curPath dn : List Char) (files : List (List Char)) (subdirs : List Dir) :
    collect_images_dfs o fuel curPath (Dir.mk dn false files subdirs) = []
    ∧ collect_images_dfs defaultOptions 3 "r".data
        (Dir.mk "r".data true []
          [Dir.mk "a".data false ["x.png".data]
            [Dir.mk "deep".data true ["z.png".data] []],
           Dir.mk "b".data true ["y.png".data] []])
      = [("r/b/y.png".data, "b".data)] := by
  constructor
  · cases fuel with
    | zero => rfl
    | succ n => simp [collect_images_dfs]
  · decide

/-- C2: folder filter cap. At a leaf directory, with a filter pattern
configured: a folder name the pattern matches with captured integer `n`
contributes exactly the first `n` names of the natural-sorted, post-skip
image list (fewer if fewer remain, witnessed by the `min` length); a
non-matching folder contributes the whole post-skip list under `show_all`
and nothing under `skip_folder`. -/
theorem folder_filter_cap (o : DiscoveryOptions) (pf : List Char → Option Nat)
    (fuel : Nat) (curPath dn : List Char) (files : List (List Char))
    (hpat : o.regexPattern = some pf) :
    (∀ n : Nat, pf dn = some n →
      collect_images_dfs o (fuel + 1) curPath (Dir.mk dn true files [])
        = ((if o.skipFirstImage then
              (sortByKey natural_keys (files.filter is_image_file)).drop 1
            else
              sortByKey natural_keys (files.filter is_image_file)).take n).map
            (fun f => (joinPath curPath f, dn))
      ∧ (collect_images_dfs o (fuel + 1) curPath (Dir.mk dn true files [])).length
          = min n (if o.skipFirstImage then
              (sortByKey natural_keys (files.filter is_image_file)).drop 1
            else
              sortByKey natural_keys (files.filter is_image_file)).length)
    ∧ (pf dn = none → o.handleUnmatched = HandleUnmatched.show_all →
      collect_images_dfs o (fuel + 1) curPath (Dir.mk dn true files [])
        = (if o.skipFirstImage then
              (sortByKey natural_keys (files.filter is_image_file)).drop 1
            else
              sortByKey natural_keys (files.filter is_image_file)).map
            (fun f => (joinPath curPath f, dn)))
    ∧ (pf dn = none → o.handleUnmatched = HandleUnmatched.skip_folder →
      collect_images_dfs o (fuel + 1) curPath (Dir.mk dn true files []) = []) := by
  refine ⟨?_, ?_, ?_⟩
  · intro n hn
    constructor
    · simp [collect_images_dfs, collect_leaf, hpat, hn]
    · simp [collect_images_dfs, collect_leaf, hpat, hn, List.length_take]
  · intro hn hpol
    simp [collect_images_dfs, collect_leaf, hpat, hn, hpol]
  · intro hn hpol
    simp [collect_images_dfs, collect_leaf, hpat, hn, hpol]







/-- Witness for C2: a leaf folder named Full12Pieces with 20 images and the
skip-first option contributes exactly 12 entries. -/
theorem folder_filter_cap_witness :
    (collect_images_dfs capOptions 1 "root".data
        (Dir.mk "Full12Pieces".data true twentyFiles [])).length = 12 := by
  have h := ((folder_filter_cap capOptions fullPattern 0 "root".data
    "Full12Pieces".data twentyFiles rfl).1 12 (by decide)).2
  rw [h]
  decide
